import Mathlib

/-!
Verification of the dashboard client of tyk-git
(`clients/dashboard/client.go`).

The Go client is embedded shallowly: the HTTP layer is abstracted by
passing the decoded remote listing directly, and by an outcome oracle for
each mutating round trip.  Each model additionally returns the list of
payloads transmitted to the remote service, so that "issues no write"
properties can be stated.
-/

namespace TykGit

/-- `apidef.APIDefinition`, restricted to the fields the client reads:
`Id` (a bson ObjectId, modelled by its hex string), `APIID`, `Name`,
`Slug` and `Proxy.ListenPath`. -/
structure APIDefinition where
  Id : String
  APIID : String
  Name : String
  Slug : String
  ListenPath : String
deriving DecidableEq, Repr

/-- `DBApiDefinition`: an embedded `APIDefinition` plus the dashboard-side
fields.  `HookReferences` is a Go slice that can be `nil`; `none` models
`nil` and `some` a non-nil slice (element values are irrelevant here). -/
structure DBApiDefinition where
  api : APIDefinition
  HookReferences : Option (List Unit)
  IsSite : Bool
  SortBy : Int
deriving DecidableEq, Repr

/-- The response envelope of every mutating call. -/
structure APIResponse where
  Message : String
  Meta : String
  Status : String
deriving DecidableEq, Repr

/-- Error value returned when a create collides with an existing record. -/
def UseUpdateError : String :=
  "Object seems to exist (same ID, API ID, Listen Path or Slug), use update()"

/-- Error value returned when an update finds no matching record. -/
def UseCreateError : String :=
  "Object does not exist, use create()"

/-- Outcome of one mutating HTTP round trip: either a transport error, or
an HTTP status code together with the decoded response envelope (`none`
when the body does not decode). -/
structure CallOutcome where
  transportError : Option String
  statusCode : Nat
  decoded : Option APIResponse
deriving DecidableEq, Repr

/-- `fixDBDef` (lines 50-54): replace a nil `HookReferences` slice by an
empty one. -/
def fixDBDef (d : DBApiDefinition) : DBApiDefinition :=
  if d.HookReferences = none then { d with HookReferences := some [] } else d

/-- `DBApiDefinition{APIDefinition: *def}`: a fresh record around the
definition, every other field at its Go zero value (`nil` slice, `false`,
`0`). -/
def asDBDef (d : APIDefinition) : DBApiDefinition :=
  { api := d, HookReferences := none, IsSite := false, SortBy := 0 }

/-- The uniqueness guard of `CreateAPI` over the fetched listing
(lines 80-96).  The fourth disjunct compares `api.Proxy.ListenPath` with
itself, exactly as written at line 93 of the source. -/
def createCheck (d : APIDefinition) (apis : List DBApiDefinition) : Option String :=
  if apis.any (fun api =>
      api.api.APIID == d.APIID || api.api.Id == d.Id || api.api.Slug == d.Slug
        || api.api.ListenPath == api.api.ListenPath) then
    some UseUpdateError
  else
    none

/-- Handling of a mutating round trip that decodes the envelope and
requires `Status == "OK"` (create lines 109-126, update lines 182-197).
Returns `Meta` on success. -/
def envelopeResult (o : CallOutcome) : Except String String :=
  match o.transportError with
  | some e => .error e
  | none =>
    if o.statusCode ≠ 200 then .error "API Returned error"
    else
      match o.decoded with
      | none => .error "JSON decode error"
      | some st =>
        if st.Status ≠ "OK" then
          .error ("API request completed, but with error: " ++ st.Message)
        else
          .ok st.Meta

/-- `Client.CreateAPI` after the listing fetch (lines 80-128): run the
uniqueness guard, then build and transmit the payload and unwrap the
envelope.  `apis` is the decoded listing, `post` the outcome of the POST
for a given payload; the first component collects the payloads
transmitted. -/
def CreateAPI (d : APIDefinition) (apis : List DBApiDefinition)
    (post : DBApiDefinition → CallOutcome) :
    List DBApiDefinition × Except String String :=
  match createCheck d apis with
  | some e => ([], .error e)
  | none =>
    let payload := fixDBDef (asDBDef d)
    ([payload], envelopeResult (post payload))

/-- The matching loop of `UpdateAPI` (lines 154-164): the first record of
the listing with the same `Id`, if any (the loop breaks at the first
match). -/
def updateMatch (d : APIDefinition) (apis : List DBApiDefinition) :
    Option DBApiDefinition :=
  apis.find? (fun api => api.api.Id == d.Id)

/-- Lines 154-172 of `UpdateAPI`: find the matching record, fail with
`UseCreateError` when there is none, backfill `APIID` from the match when
the definition carries an empty one, and build the payload. -/
def updatePrepare (d : APIDefinition) (apis : List DBApiDefinition) :
    Except String DBApiDefinition :=
  match updateMatch d apis with
  | none => .error UseCreateError
  | some api =>
    let d2 := if d.APIID = "" then { d with APIID := api.api.APIID } else d
    .ok (fixDBDef (asDBDef d2))

/-- `Client.UpdateAPI` after the listing fetch (lines 154-199): prepare
the payload (or fail before any write), transmit it with PUT and unwrap
the envelope.  The first component collects the payloads transmitted. -/
def UpdateAPI (d : APIDefinition) (apis : List DBApiDefinition)
    (put : DBApiDefinition → CallOutcome) :
    List DBApiDefinition × Except String Unit :=
  match updatePrepare d apis with
  | .error e => ([], .error e)
  | .ok payload =>
    ([payload], (envelopeResult (put payload)).map (fun _ => ()))

/-- `Client.deleteAPI` (lines 299-316): only the transport outcome and the
HTTP status code are inspected; the response body is never decoded, so the
`decoded` field of the outcome is ignored. -/
def deleteAPI (o : CallOutcome) : Except String Unit :=
  match o.transportError with
  | some e => .error e
  | none =>
    if o.statusCode ≠ 200 then .error "API Returned error" else .ok ()

/-- The content of a Go `map[string]int` filled by the forward loop
`m[ids[i]] = i`: a later assignment to the same key overwrites an earlier
one, so each key is mapped to the index of its last occurrence. -/
def idIdxMap : List String → String → Option Nat
  | [], _ => none
  | a :: rest, k =>
    match idIdxMap rest k with
    | some j => some (j + 1)
    | none => if a = k then some 0 else none

/-- `GitIDMap` of `Sync` (lines 240-243), keyed by `def.Id.Hex()`. -/
def gitIDMap (D : List APIDefinition) : String → Option Nat :=
  idIdxMap (D.map (fun d => d.Id))

/-- The three operation lists computed by `Sync`, with the source field
names. -/
structure SyncOps where
  deleteAPIs : List String
  updateAPIs : List APIDefinition
  createAPIs : List APIDefinition
deriving DecidableEq, Repr

/-- The diff phase of `Client.Sync` (lines 231-267).  `DashIDMap` is used
only through key membership, so it is represented by the listing ids; the
iteration over each Go map visits every key once, modelled by the
deduplicated key lists together with `gitIDMap` for the stored index. -/
def syncDiff (D : List APIDefinition) (apis : List DBApiDefinition) : SyncOps :=
  let dashIds := apis.map (fun a => a.api.Id)
  let gitIds := D.map (fun d => d.Id)
  { updateAPIs :=
      ((gitIds.dedup.filter (fun k => decide (k ∈ dashIds))).filterMap
        (fun k => (gitIDMap D k).bind (fun i => D[i]?))),
    deleteAPIs :=
      dashIds.dedup.filter (fun k => decide (k ∉ gitIds)),
    createAPIs :=
      ((gitIds.dedup.filter (fun k => decide (k ∉ dashIds))).filterMap
        (fun k => (gitIDMap D k).bind (fun i => D[i]?))) }

/-- One sub-operation of the apply phase of `Sync`. -/
inductive SyncOp where
  | del : String → SyncOp
  | upd : APIDefinition → SyncOp
  | create : APIDefinition → SyncOp
deriving DecidableEq, Repr

/-- One apply loop of `Sync` (each of lines 270-275, 278-283, 286-294):
run the operations in order, stop at the first error and return it.  The
first component records the operations attempted, including the failing
one. -/
def applyPhase (env : SyncOp → Option String) :
    List SyncOp → List SyncOp × Option String
  | [] => ([], none)
  | op :: rest =>
    match env op with
    | some e => ([op], some e)
    | none =>
      let r := applyPhase env rest
      (op :: r.1, r.2)

/-- The apply phase of `Client.Sync` (lines 269-296): all deletes, then
all updates, then all creates, each loop aborting the whole call at its
first error.  `env` gives the outcome of each sub-operation (`none` for
success). -/
def syncApply (env : SyncOp → Option String) (ops : SyncOps) :
    List SyncOp × Option String :=
  let dels := applyPhase env (ops.deleteAPIs.map SyncOp.del)
  match dels.2 with
  | some e => (dels.1, some e)
  | none =>
    let upds := applyPhase env (ops.updateAPIs.map SyncOp.upd)
    match upds.2 with
    | some e => (dels.1 ++ upds.1, some e)
    | none =>
      let crs := applyPhase env (ops.createAPIs.map SyncOp.create)
      (dels.1 ++ upds.1 ++ crs.1, crs.2)

/-- The operations of one `Sync` apply run, in the order the source
executes them: deletes, then updates, then creates. -/
def syncOpsList (ops : SyncOps) : List SyncOp :=
  ops.deleteAPIs.map SyncOp.del ++ ops.updateAPIs.map SyncOp.upd ++
    ops.createAPIs.map SyncOp.create

/-! ### Sample records, used to evaluate the claims on concrete inputs -/

/-- A definition with id `a`. -/
def defA : APIDefinition := ⟨"a", "x", "n1", "s1", "/p1"⟩

/-- Same `Id` as `defA` but a different `Name`. -/
def defA2 : APIDefinition := ⟨"a", "x", "n9", "s1", "/p1"⟩

/-- A definition with id `b`. -/
def defB : APIDefinition := ⟨"b", "y", "n2", "s2", "/p2"⟩

/-- A definition with an empty `APIID`, id `a` and slug `foo2`. -/
def defEmptyAPIID : APIDefinition := ⟨"a", "", "n1", "foo2", "/p1"⟩

/-- A remote record with id `a`, `APIID` `xyz` and slug `foo`. -/
def recA : DBApiDefinition := ⟨⟨"a", "xyz", "m", "foo", "/q"⟩, none, false, 0⟩

/-- A remote record with id `b`. -/
def recB : DBApiDefinition := ⟨⟨"b", "y2", "n3", "s3", "/p3"⟩, none, false, 0⟩

/-- A remote record with id `c`, sharing no identity key with `defB`. -/
def recC : DBApiDefinition := ⟨⟨"c", "z", "n4", "s4", "/p4"⟩, none, false, 0⟩

/-- A transport-clean HTTP 200 outcome with an `OK` envelope. -/
def outcomeOK : CallOutcome := ⟨none, 200, some ⟨"", "newid", "OK"⟩⟩

/-- A transport-clean HTTP 200 outcome whose envelope reports a logical
failure. -/
def outcomeFail (msg stat : String) : CallOutcome :=
  ⟨none, 200, some ⟨msg, "", stat⟩⟩

/-! ### Helper lemmas -/

/-- A key is absent from the index map exactly when it occurs nowhere in
the id list. -/
theorem idIdxMap_eq_none_iff (ids : List String) (k : String) :
    idIdxMap ids k = none ↔ k ∉ ids := by
  induction ids with
  | nil => simp [idIdxMap]
  | cons a rest ih =>
    simp only [idIdxMap, List.mem_cons]
    cases h : idIdxMap rest k with
    | some j =>
      have hk : k ∈ rest := by
        by_contra hc
        rw [← ih] at hc
        rw [hc] at h
        exact Option.noConfusion h
      simp [hk]
    | none =>
      have hk : k ∉ rest := ih.mp h
      by_cases hak : a = k
      · subst hak
        simp
      · simp only [if_neg hak]
        constructor
        · intro _
          rintro (h2 | h2)
          · exact hak h2.symm
          · exact hk h2
        · intro _
          trivial

/-- A stored index points at an occurrence of the key, and it is the last
one: no later position holds the same key. -/
theorem idIdxMap_spec (ids : List String) (k : String) (j : Nat)
    (h : idIdxMap ids k = some j) :
    ∃ hj : j < ids.length, ids[j] = k ∧
      ∀ j2, ∀ hj2 : j2 < ids.length, j < j2 → ids[j2] ≠ k := by
  induction ids generalizing j with
  | nil => simp [idIdxMap] at h
  | cons a rest ih =>
    simp only [idIdxMap] at h
    cases hr : idIdxMap rest k with
    | some j0 =>
      rw [hr] at h
      have hjj : j = j0 + 1 := (Option.some_inj.mp h).symm
      subst hjj
      obtain ⟨hj0, hget, hafter⟩ := ih j0 hr
      refine ⟨Nat.succ_lt_succ hj0, by simpa using hget, ?_⟩
      intro j2 hj2 hlt
      cases j2 with
      | zero => omega
      | succ m =>
        have hm : m < rest.length := Nat.lt_of_succ_lt_succ hj2
        have := hafter m hm (Nat.lt_of_succ_lt_succ hlt)
        simpa using this
    | none =>
      rw [hr] at h
      by_cases hak : a = k
      · rw [if_pos hak] at h
        have hj0 : j = 0 := (Option.some_inj.mp h).symm
        subst hj0
        refine ⟨Nat.succ_pos _, by simpa using hak, ?_⟩
        intro j2 hj2 hlt
        cases j2 with
        | zero => omega
        | succ m =>
          have hm : m < rest.length := Nat.lt_of_succ_lt_succ hj2
          intro hc
          have hmem : k ∈ rest := by
            have : rest[m] = k := by simpa using hc
            exact this ▸ List.getElem_mem hm
          exact (idIdxMap_eq_none_iff rest k).mp hr hmem
      · rw [if_neg hak] at h
        exact Option.noConfusion h

/-- Every key occurring in the id list is present in the index map. -/
theorem idIdxMap_isSome_of_mem (ids : List String) (k : String)
    (h : k ∈ ids) : ∃ j, idIdxMap ids k = some j := by
  cases hm : idIdxMap ids k with
  | none => exact absurd h ((idIdxMap_eq_none_iff ids k).mp hm)
  | some j => exact ⟨j, rfl⟩

/-- One apply loop runs the successful prefix, then attempts at most the
first failing operation, whose error becomes the result. -/
theorem applyPhase_eq (env : SyncOp → Option String) (l : List SyncOp) :
    applyPhase env l =
      (l.takeWhile (fun op => (env op).isNone) ++
        (l.dropWhile (fun op => (env op).isNone)).take 1,
       ((l.dropWhile (fun op => (env op).isNone)).head?).bind env) := by
  induction l with
  | nil => simp [applyPhase]
  | cons op rest ih =>
    simp only [applyPhase]
    cases h : env op with
    | some e =>
      simp [List.takeWhile_cons, List.dropWhile_cons, h]
    | none =>
      simp [List.takeWhile_cons, List.dropWhile_cons, h, ih]

/-- Sequencing two apply loops behaves like one loop over the
concatenation: the second runs only when the first finished cleanly. -/
theorem applyPhase_append (env : SyncOp → Option String) (l1 l2 : List SyncOp) :
    applyPhase env (l1 ++ l2) =
      if (applyPhase env l1).2 = none
      then ((applyPhase env l1).1 ++ (applyPhase env l2).1, (applyPhase env l2).2)
      else applyPhase env l1 := by
  induction l1 with
  | nil => simp [applyPhase]
  | cons op rest ih =>
    simp only [List.cons_append, applyPhase]
    cases h : env op with
    | some e => simp
    | none =>
      dsimp only
      rw [List.append_eq, ih]
      by_cases h2 : (applyPhase env rest).2 = none <;> simp [h2]

/-- The three sequenced loops of `Sync` are one first-error loop over the
concatenated operation list. -/
theorem syncApply_eq (env : SyncOp → Option String) (ops : SyncOps) :
    syncApply env ops = applyPhase env (syncOpsList ops) := by
  show syncApply env ops =
    applyPhase env ((ops.deleteAPIs.map SyncOp.del ++ ops.updateAPIs.map SyncOp.upd) ++
      ops.createAPIs.map SyncOp.create)
  rw [applyPhase_append, applyPhase_append]
  simp only [syncApply]
  cases h1 : (applyPhase env (ops.deleteAPIs.map SyncOp.del)).2 with
  | some e =>
    dsimp only
    rw [if_neg (by simp [h1])]
    rw [← h1]
    rw [if_neg (by simp [h1])]
  | none =>
    cases h2 : (applyPhase env (ops.updateAPIs.map SyncOp.upd)).2 with
    | some e => simp
    | none => simp

/-- Eliminating membership in a git-side operation list of `syncDiff`:
the element was fetched through the stored index of its own id, and its id
passes the side condition. -/
theorem mem_gitSide_elim (D : List APIDefinition) (p : String → Bool)
    (d : APIDefinition)
    (h : d ∈ ((D.map fun x => x.Id).dedup.filter p).filterMap
      (fun k => (gitIDMap D k).bind (fun i => D[i]?))) :
    (∃ i, ∃ hi : i < D.length, D[i] = d ∧ gitIDMap D d.Id = some i) ∧
      p d.Id = true := by
  rcases List.mem_filterMap.mp h with ⟨k, hk, hbind⟩
  rcases Option.bind_eq_some.mp hbind with ⟨i, hgit, hget⟩
  rcases List.getElem?_eq_some.mp hget with ⟨hi, hgeti⟩
  rcases List.mem_filter.mp hk with ⟨hkd, hpk⟩
  have hgit2 : idIdxMap (D.map fun x => x.Id) k = some i := hgit
  obtain ⟨hlen, hmap, _⟩ := idIdxMap_spec (D.map fun x => x.Id) k i hgit2
  rw [List.getElem_map] at hmap
  have hid : d.Id = k := by rw [← hgeti]; exact hmap
  subst hid
  exact ⟨⟨i, hi, hgeti, hgit⟩, hpk⟩

/-- Introducing membership in a git-side operation list of `syncDiff`,
assuming the desired ids are pairwise distinct. -/
theorem mem_gitSide_intro (D : List APIDefinition) (p : String → Bool)
    (d : APIDefinition) (hnd : (D.map fun x => x.Id).Nodup)
    (hd : d ∈ D) (hp : p d.Id = true) :
    d ∈ ((D.map fun x => x.Id).dedup.filter p).filterMap
      (fun k => (gitIDMap D k).bind (fun i => D[i]?)) := by
  obtain ⟨n, hn, hgetn⟩ := List.mem_iff_getElem.mp hd
  have hkmem : d.Id ∈ D.map fun x => x.Id := List.mem_map.mpr ⟨d, hd, rfl⟩
  obtain ⟨i, hgit⟩ := idIdxMap_isSome_of_mem _ _ hkmem
  obtain ⟨hlen, hmap, _⟩ := idIdxMap_spec _ _ _ hgit
  have hi : i < D.length := by simpa using hlen
  have hn2 : n < (D.map fun x => x.Id).length := by simpa using hn
  have h2 : (D.map fun x => x.Id)[n] = d.Id := by
    rw [List.getElem_map, hgetn]
  have hin : i = n := hnd.getElem_inj_iff.mp (hmap.trans h2.symm)
  subst hin
  refine List.mem_filterMap.mpr ⟨d.Id, List.mem_filter.mpr
    ⟨List.mem_dedup.mpr hkmem, hp⟩, ?_⟩
  have hgit2 : gitIDMap D d.Id = some i := hgit
  rw [hgit2, Option.some_bind]
  exact List.getElem?_eq_some.mpr ⟨hi, hgetn⟩

/-- Membership characterization of `updateAPIs` for duplicate-free
desired ids. -/
theorem mem_updateAPIs_iff (D : List APIDefinition)
    (apis : List DBApiDefinition) (hnd : (D.map fun x => x.Id).Nodup)
    (d : APIDefinition) :
    d ∈ (syncDiff D apis).updateAPIs ↔
      d ∈ D ∧ d.Id ∈ apis.map (fun a => a.api.Id) := by
  constructor
  · intro h
    have h2 := mem_gitSide_elim D _ d h
    rcases h2 with ⟨⟨i, hi, hgeti, _⟩, hp⟩
    exact ⟨hgeti ▸ List.getElem_mem hi, of_decide_eq_true hp⟩
  · intro ⟨hd, hmem⟩
    exact mem_gitSide_intro D _ d hnd hd (decide_eq_true hmem)

/-- Membership characterization of `createAPIs` for duplicate-free
desired ids. -/
theorem mem_createAPIs_iff (D : List APIDefinition)
    (apis : List DBApiDefinition) (hnd : (D.map fun x => x.Id).Nodup)
    (d : APIDefinition) :
    d ∈ (syncDiff D apis).createAPIs ↔
      d ∈ D ∧ d.Id ∉ apis.map (fun a => a.api.Id) := by
  constructor
  · intro h
    have h2 := mem_gitSide_elim D _ d h
    rcases h2 with ⟨⟨i, hi, hgeti, _⟩, hp⟩
    exact ⟨hgeti ▸ List.getElem_mem hi, of_decide_eq_true hp⟩
  · intro ⟨hd, hmem⟩
    exact mem_gitSide_intro D _ d hnd hd (decide_eq_true hmem)

/-- Membership characterization of `deleteAPIs` (no distinctness
needed). -/
theorem mem_deleteAPIs_iff (D : List APIDefinition)
    (apis : List DBApiDefinition) (k : String) :
    k ∈ (syncDiff D apis).deleteAPIs ↔
      k ∈ apis.map (fun a => a.api.Id) ∧ k ∉ D.map (fun x => x.Id) := by
  show k ∈ (apis.map fun a => a.api.Id).dedup.filter _ ↔ _
  rw [List.mem_filter, List.mem_dedup]
  constructor
  · intro ⟨h1, h2⟩
    exact ⟨h1, of_decide_eq_true h2⟩
  · intro ⟨h1, h2⟩
    exact ⟨h1, decide_eq_true h2⟩

/-! ### Claims -/

/-- C1: the spec claims `CreateAPI` fails with the already-exists error
exactly when some listed record shares `APIID`, `Id`, `Slug` or
`ListenPath` with the definition, and otherwise issues the create write.
The code contradicts this: line 93 compares a listing record listen path
with itself, so the guard fires for every non-empty listing.  Here the
single listed record differs from the definition on all four keys, yet
`CreateAPI` returns `UseUpdateError` and transmits nothing. -/
theorem create_guard_fires_without_any_key_collision :
    ([recC].all (fun api =>
      api.api.APIID != defB.APIID && api.api.Id != defB.Id &&
        api.api.Slug != defB.Slug && api.api.ListenPath != defB.ListenPath))
      = true ∧
    CreateAPI defB [recC] (fun _ => outcomeOK) = ([], .error UseUpdateError) :=
  ⟨by decide, rfl⟩

/-- C4 counterexample: `deleteAPI` never decodes the response envelope, so
an HTTP 200 delete whose envelope status is not `"OK"` is still treated as
success, contradicting the claim for the delete operation. -/
theorem delete_ignores_envelope_status :
    deleteAPI (outcomeFail "failed" "Error") = .ok () :=
  rfl

/-- C4 (amended to create and update): when the HTTP status is 200 but the
decoded envelope carries a status other than `"OK"`, `CreateAPI` and
`UpdateAPI` fail with the service-reported message. -/
theorem create_update_envelope_status_checked
    (d d2 : APIDefinition) (apis apis2 : List DBApiDefinition)
    (post put : DBApiDefinition → CallOutcome)
    (st st2 : APIResponse) (pay : DBApiDefinition)
    (hc : createCheck d apis = none)
    (h1 : (post (fixDBDef (asDBDef d))).transportError = none)
    (h2 : (post (fixDBDef (asDBDef d))).statusCode = 200)
    (h3 : (post (fixDBDef (asDBDef d))).decoded = some st)
    (h4 : st.Status ≠ "OK")
    (hu : updatePrepare d2 apis2 = .ok pay)
    (h5 : (put pay).transportError = none)
    (h6 : (put pay).statusCode = 200)
    (h7 : (put pay).decoded = some st2)
    (h8 : st2.Status ≠ "OK") :
    (CreateAPI d apis post).2 =
        .error ("API request completed, but with error: " ++ st.Message) ∧
    (UpdateAPI d2 apis2 put).2 =
        .error ("API request completed, but with error: " ++ st2.Message) := by
  constructor
  · simp [CreateAPI, hc, envelopeResult, h1, h2, h3, h4]
  · simp [UpdateAPI, hu, envelopeResult, h5, h6, h7, h8, Except.map]

/-- C4 witness: a concrete create against an empty listing and a concrete
update against a matching record, both answered with HTTP 200 and a
non-`"OK"` envelope, fail with the reported message. -/
theorem create_update_envelope_status_checked_witness :
    (CreateAPI defA [] (fun _ => outcomeFail "boom" "Error")).2 =
      .error ("API request completed, but with error: " ++ "boom") ∧
    (UpdateAPI defB [recB] (fun _ => outcomeFail "bam" "Failed")).2 =
      .error ("API request completed, but with error: " ++ "bam") :=
  create_update_envelope_status_checked defA defB [] [recB]
    (fun _ => outcomeFail "boom" "Error") (fun _ => outcomeFail "bam" "Failed")
    ⟨"boom", "", "Error"⟩ ⟨"bam", "", "Failed"⟩
    (fixDBDef (asDBDef defB))
    rfl rfl rfl rfl (by decide) rfl rfl rfl rfl (by decide)

/-- C5: when the matched remote record is `r`, the transmitted update
payload is exactly the prepared record, whose `APIID` is backfilled from
`r` when the definition carried an empty one, and kept otherwise. -/
theorem update_backfills_empty_apiid (d : APIDefinition)
    (apis : List DBApiDefinition) (r : DBApiDefinition)
    (put : DBApiDefinition → CallOutcome)
    (h : updateMatch d apis = some r) :
    (UpdateAPI d apis put).1 =
      [fixDBDef (asDBDef
        (if d.APIID = "" then { d with APIID := r.api.APIID } else d))] ∧
    (fixDBDef (asDBDef
        (if d.APIID = "" then { d with APIID := r.api.APIID } else d))).api.APIID
      = (if d.APIID = "" then r.api.APIID else d.APIID) := by
  constructor
  · simp [UpdateAPI, updatePrepare, h]
  · by_cases hA : d.APIID = "" <;> simp [hA, fixDBDef, asDBDef]

/-- C5 witness: a definition with empty `APIID` matched by a record whose
`APIID` is `xyz` transmits a payload carrying `xyz`. -/
theorem update_backfills_empty_apiid_witness :
    (UpdateAPI defEmptyAPIID [recA] (fun _ => outcomeOK)).1 =
      [fixDBDef (asDBDef
        (if defEmptyAPIID.APIID = ""
         then { defEmptyAPIID with APIID := recA.api.APIID }
         else defEmptyAPIID))] ∧
    (fixDBDef (asDBDef
        (if defEmptyAPIID.APIID = ""
         then { defEmptyAPIID with APIID := recA.api.APIID }
         else defEmptyAPIID))).api.APIID =
      (if defEmptyAPIID.APIID = "" then recA.api.APIID
       else defEmptyAPIID.APIID) :=
  update_backfills_empty_apiid defEmptyAPIID [recA] recA
    (fun _ => outcomeOK) rfl

/-- C6: `UpdateAPI` fails with `UseCreateError` and transmits nothing when
no listed record carries the definition id, and it transmits a payload
exactly when some record does. -/
theorem update_without_match_is_use_create_error (d : APIDefinition)
    (apis : List DBApiDefinition) (put : DBApiDefinition → CallOutcome) :
    (apis.all (fun r => r.api.Id != d.Id) = true →
      UpdateAPI d apis put = ([], .error UseCreateError)) ∧
    ((UpdateAPI d apis put).1 ≠ [] ↔
      apis.any (fun r => r.api.Id == d.Id) = true) := by
  constructor
  · intro hall
    have hnone : updateMatch d apis = none := by
      rw [updateMatch, List.find?_eq_none]
      intro x hx
      have := List.all_eq_true.mp hall x hx
      simpa using this
    simp [UpdateAPI, updatePrepare, hnone]
  · constructor
    · intro hne
      cases hm : updateMatch d apis with
      | none =>
        exfalso
        apply hne
        simp [UpdateAPI, updatePrepare, hm]
      | some r =>
        have hsome : (apis.find? (fun api => api.api.Id == d.Id)).isSome := by
          rw [show apis.find? (fun api => api.api.Id == d.Id) = some r from hm]
          rfl
        rcases List.find?_isSome.mp hsome with ⟨x, hx, hpx⟩
        exact List.any_eq_true.mpr ⟨x, hx, hpx⟩
    · intro hany
      rcases List.any_eq_true.mp hany with ⟨x, hx, hpx⟩
      have hsome : (updateMatch d apis).isSome :=
        List.find?_isSome.mpr ⟨x, hx, hpx⟩
      cases hm : updateMatch d apis with
      | none => rw [hm] at hsome; exact Bool.noConfusion hsome
      | some r => simp [UpdateAPI, updatePrepare, hm]

/-- C6 witness: against an empty listing, a concrete update fails with
`UseCreateError` and transmits nothing. -/
theorem update_without_match_is_use_create_error_witness :
    UpdateAPI defA [] (fun _ => outcomeOK) = ([], .error UseCreateError) :=
  (update_without_match_is_use_create_error defA []
    (fun _ => outcomeOK)).1 rfl

/-- C7: every payload transmitted by `CreateAPI` or `UpdateAPI` has its
`HookReferences` collection normalized to the empty sequence, never left
unset. -/
theorem transmitted_payload_hook_references_nonnil (d : APIDefinition)
    (apis : List DBApiDefinition) (post put : DBApiDefinition → CallOutcome) :
    (∀ p ∈ (CreateAPI d apis post).1, p.HookReferences = some []) ∧
    (∀ p ∈ (UpdateAPI d apis put).1, p.HookReferences = some []) := by
  constructor
  · intro p hp
    cases hcr : createCheck d apis with
    | some e => simp [CreateAPI, hcr] at hp
    | none =>
      simp [CreateAPI, hcr] at hp
      subst hp
      rfl
  · intro p hp
    cases hm : updateMatch d apis with
    | none => simp [UpdateAPI, updatePrepare, hm] at hp
    | some r =>
      simp [UpdateAPI, updatePrepare, hm] at hp
      subst hp
      rfl

/-- C7 witness: the payload of a concrete create carries an empty
`HookReferences` sequence. -/
theorem transmitted_payload_hook_references_nonnil_witness :
    (fixDBDef (asDBDef defA)).HookReferences = some [] :=
  (transmitted_payload_hook_references_nonnil defA []
    (fun _ => outcomeOK) (fun _ => outcomeOK)).1
    (fixDBDef (asDBDef defA)) (by decide)

/-- C8: a remote record sharing the definition id makes the update-time
resolution report a match even when the slugs disagree: `updatePrepare`
succeeds instead of failing with `UseCreateError`. -/
theorem update_match_id_wins_over_slug (d : APIDefinition)
    (apis : List DBApiDefinition) (r : DBApiDefinition)
    (hr : r ∈ apis) (hid : d.Id = r.api.Id) (hslug : d.Slug ≠ r.api.Slug) :
    (updatePrepare d apis).isOk = true := by
  have hsome : (updateMatch d apis).isSome :=
    List.find?_isSome.mpr ⟨r, hr, by simp [hid]⟩
  cases hm : updateMatch d apis with
  | none => rw [hm] at hsome; exact Bool.noConfusion hsome
  | some a => simp [updatePrepare, hm, Except.isOk, Except.toBool]

/-- C8 witness: equal ids with different slugs still resolve to an
existing remote record. -/
theorem update_match_id_wins_over_slug_witness :
    (updatePrepare defEmptyAPIID [recA]).isOk = true :=
  update_match_id_wins_over_slug defEmptyAPIID [recA] recA
    (by decide) rfl (by decide)

/-- C2 counterexample: with two desired definitions sharing an `Id`, the
earlier one has its id among the remote ids yet lands in neither
`updateAPIs` nor `createAPIs`, so the computed sets are not the claimed
exact partition of the desired list. -/
theorem sync_partition_fails_on_duplicate_ids :
    defA ∈ [defA, defA2] ∧
    defA.Id ∈ [asDBDef defA].map (fun a => a.api.Id) ∧
    defA ∉ (syncDiff [defA, defA2] [asDBDef defA]).updateAPIs ∧
    defA ∉ (syncDiff [defA, defA2] [asDBDef defA]).createAPIs := by
  decide

/-- C2 (amended with pairwise-distinct desired ids): `updateAPIs` holds
exactly the desired definitions whose id occurs remotely, `createAPIs`
exactly those whose id does not, `deleteAPIs` exactly the remote ids
absent from the desired ids, and the three sets are mutually disjoint. -/
theorem sync_partition_of_nodup_ids (D : List APIDefinition)
    (apis : List DBApiDefinition) (hnd : (D.map fun x => x.Id).Nodup) :
    (∀ d, d ∈ (syncDiff D apis).updateAPIs ↔
        d ∈ D ∧ d.Id ∈ apis.map (fun a => a.api.Id)) ∧
    (∀ d, d ∈ (syncDiff D apis).createAPIs ↔
        d ∈ D ∧ d.Id ∉ apis.map (fun a => a.api.Id)) ∧
    (∀ k, k ∈ (syncDiff D apis).deleteAPIs ↔
        k ∈ apis.map (fun a => a.api.Id) ∧ k ∉ D.map (fun x => x.Id)) ∧
    (∀ d, ¬(d ∈ (syncDiff D apis).updateAPIs ∧
        d ∈ (syncDiff D apis).createAPIs)) ∧
    (∀ d, d ∈ (syncDiff D apis).updateAPIs →
        d.Id ∉ (syncDiff D apis).deleteAPIs) ∧
    (∀ d, d ∈ (syncDiff D apis).createAPIs →
        d.Id ∉ (syncDiff D apis).deleteAPIs) := by
  refine ⟨mem_updateAPIs_iff D apis hnd, mem_createAPIs_iff D apis hnd,
    mem_deleteAPIs_iff D apis, ?_, ?_, ?_⟩
  · intro d hd
    exact ((mem_createAPIs_iff D apis hnd d).mp hd.2).2
      ((mem_updateAPIs_iff D apis hnd d).mp hd.1).2
  · intro d h1 hdel
    exact ((mem_deleteAPIs_iff D apis d.Id).mp hdel).2
      (List.mem_map.mpr
        ⟨d, ((mem_updateAPIs_iff D apis hnd d).mp h1).1, rfl⟩)
  · intro d h1 hdel
    exact ((mem_createAPIs_iff D apis hnd d).mp h1).2
      ((mem_deleteAPIs_iff D apis d.Id).mp hdel).1

/-- C2 witness: on a concrete duplicate-free desired list, a definition
with a remotely present id is in `updateAPIs` exactly as characterized. -/
theorem sync_partition_of_nodup_ids_witness :
    defA ∈ (syncDiff [defA, defB] [asDBDef defA, recC]).updateAPIs ↔
      defA ∈ [defA, defB] ∧
        defA.Id ∈ [asDBDef defA, recC].map (fun a => a.api.Id) :=
  (sync_partition_of_nodup_ids [defA, defB] [asDBDef defA, recC]
    (by decide)).1 defA

/-- C3: `Sync` applies its computed operations as one sequential pass in
the fixed order deletes, updates, creates: it attempts every operation of
the successful prefix, then at most the first failing operation, returns
that first error (or `none` when all succeed), and attempts nothing after
the failure, with everything already attempted left applied. -/
theorem sync_applies_in_order_stops_at_first_error (D : List APIDefinition)
    (apis : List DBApiDefinition) (env : SyncOp → Option String) :
    syncApply env (syncDiff D apis) =
      ((syncOpsList (syncDiff D apis)).takeWhile (fun op => (env op).isNone) ++
        ((syncOpsList (syncDiff D apis)).dropWhile
          (fun op => (env op).isNone)).take 1,
       (((syncOpsList (syncDiff D apis)).dropWhile
          (fun op => (env op).isNone)).head?).bind env) :=
  (syncApply_eq env (syncDiff D apis)).trans
    (applyPhase_eq env (syncOpsList (syncDiff D apis)))

/-- C10: when two desired definitions share an id hex, the id-to-index
map does not keep the earlier index (a later map assignment overwrote it,
keeping some later occurrence), and the earlier definition, when it
differs as a value from every other entry, is in neither `updateAPIs` nor
`createAPIs`: it is silently never created or updated. -/
theorem sync_earlier_duplicate_never_participates (D : List APIDefinition)
    (apis : List DBApiDefinition) (i j : Nat)
    (hi : i < D.length) (hj : j < D.length) (hij : i < j)
    (hid : D[i].Id = D[j].Id)
    (hvals : ∀ k, ∀ hk : k < D.length, k ≠ i → D[k] ≠ D[i]) :
    gitIDMap D (D[i].Id) ≠ some i ∧
    (∃ m, i < m ∧ gitIDMap D (D[i].Id) = some m) ∧
    D[i] ∉ (syncDiff D apis).updateAPIs ∧
    D[i] ∉ (syncDiff D apis).createAPIs := by
  have hmem : D[i].Id ∈ D.map (fun x => x.Id) :=
    List.mem_map.mpr ⟨D[i], List.getElem_mem hi, rfl⟩
  obtain ⟨m, hm⟩ := idIdxMap_isSome_of_mem (D.map fun x => x.Id) (D[i].Id) hmem
  obtain ⟨hlen, hmap, hlast⟩ := idIdxMap_spec (D.map fun x => x.Id) (D[i].Id) m hm
  have hjm : j ≤ m := by
    by_contra hc
    push_neg at hc
    have hj2 : j < (D.map fun x => x.Id).length := by simpa using hj
    exact hlast j hj2 hc (by rw [List.getElem_map]; exact hid.symm)
  have him : i < m := lt_of_lt_of_le hij hjm
  have hmi : gitIDMap D (D[i].Id) = some m := hm
  have hnoti : gitIDMap D (D[i].Id) ≠ some i := by
    intro hcontra
    rw [hmi] at hcontra
    have : m = i := Option.some_inj.mp hcontra
    omega
  refine ⟨hnoti, ⟨m, him, hmi⟩, ?_, ?_⟩
  · intro hmem2
    obtain ⟨⟨i0, hi0, hgeti0, hgit0⟩, _⟩ := mem_gitSide_elim D _ _ hmem2
    have hi0i : i0 = i := by
      by_contra hc
      exact hvals i0 hi0 hc hgeti0
    subst hi0i
    exact hnoti hgit0
  · intro hmem2
    obtain ⟨⟨i0, hi0, hgeti0, hgit0⟩, _⟩ := mem_gitSide_elim D _ _ hmem2
    have hi0i : i0 = i := by
      by_contra hc
      exact hvals i0 hi0 hc hgeti0
    subst hi0i
    exact hnoti hgit0

/-- C10 witness: with two concrete definitions sharing id `a`, the
earlier one participates in no operation set. -/
theorem sync_earlier_duplicate_never_participates_witness :
    defA ∉ (syncDiff [defA, defA2] [recC]).updateAPIs ∧
    defA ∉ (syncDiff [defA, defA2] [recC]).createAPIs :=
  have h := sync_earlier_duplicate_never_participates [defA, defA2] [recC]
    0 1 (by decide) (by decide) (by decide) (by decide) (by decide)
  ⟨h.2.2.1, h.2.2.2⟩

end TykGit
